import Mathlib

/-!
Verification of the commander.ts parsing and dispatch engine.

The definitions below are a shallow embedding of `src/lib/command.ts`
(class `Command`): the token classifier `parseOptions`, the dispatch
decision of `_parseCommand`, the mandatory/conflicting option validation
pass, the help/version termination payloads, and the parse-state
save/restore lifecycle.  The `Option` class of `lib/option.ts` is not part
of the provided sources (only its callers are), so the option descriptor
and its small accessors (`is`, `name`, `attributeName`, `isBoolean`,
`_collectValue`, the `DualOptions` helper) are modelled from the spec,
as flagged in their doc comments.  Everything else is translated from
`command.ts` directly.
-/

namespace CommanderTS

/-- JavaScript values that can appear as resolved option values in this
model: raw strings from the command line, booleans for flags, and string
arrays for variadic collection. -/
inductive JsValue where
  | str (s : String)
  | bool (b : Bool)
  | arr (xs : List String)
deriving DecidableEq, Repr

/-- Provenance of a resolved option value (`_optionValueSources` entries:
default, config, env, cli, implied). -/
inductive Source where
  | default
  | config
  | env
  | cli
  | implied
deriving DecidableEq, Repr

/-- The uniform error payload of `CommanderError` (lib/error.ts):
exit code, machine readable category string, human message. -/
structure CommanderError where
  exitCode : Nat
  code : String
  message : String
deriving DecidableEq, Repr

/-- A value-assignment signal emitted by the classifier
(`this.emit("option:" ++ name, value)` in `parseOptions`):
`value` for an emit carrying a captured string, `nullValue` for an
optional option used without a value (emit with `null`), `flag` for a
boolean option (emit with no argument). -/
inductive OptEvent where
  | value (name : String) (v : String)
  | nullValue (name : String)
  | flag (name : String)
deriving DecidableEq, Repr

/-- Option descriptor.  Modelled from the spec: `lib/option.ts` is not
under `src/`, so the descriptor's shape follows spec section 3 ("Option
descriptor": short/long spelling, argument cardinality none/required/
optional, variadic, default, validator, conflicts, environment binding,
mandatory flag) and the fields `command.ts` reads
(`required`, `optional`, `variadic`, `short`, `long`, `flags`,
`mandatory`, `negate`, `presetArg`, `envVar`, `conflictsWith`,
`implied`, `parseArg`, `defaultValue`). -/
structure Opt where
  flags : String
  short : Option String := none
  long : Option String := none
  required : Bool := false
  optional : Bool := false
  variadic : Bool := false
  mandatory : Bool := false
  negate : Bool := false
  optName : String
  conflictsWith : List String := []
  envVar : Option String := none
  presetArg : Option JsValue := none
  defaultValue : Option JsValue := none
  implied : List (String × JsValue) := []
  parseArg : Option (JsValue → Option JsValue → Except CommanderError JsValue) := none

/-- Modelled from the spec: `Option.is(arg)` of the absent
`lib/option.ts`, used by `Command._findOption`; spec section 4.1 step 4
("Exact match against a registered flag").  A token matches an option
when it equals its short or its long spelling. -/
def Opt.is (o : Opt) (arg : String) : Bool :=
  o.short == some arg || o.long == some arg

/-- Modelled from the spec: `Option.name()` of the absent
`lib/option.ts` ("human key name derived from long/short").  The model
stores the derived name directly in `optName`. -/
def Opt.name (o : Opt) : String := o.optName

/-- Strip a leading `no-` from a negated option name (the
leading-pattern replacement step of `attributeName`). -/
def stripNoDash (s : String) : String :=
  match s.data with
  | 'n' :: 'o' :: '-' :: t => String.mk t
  | _ => s

/-- Dash-separated words joined with every word after the first
capitalized, character by character. -/
def camelcaseList : List Char → List Char
  | [] => []
  | '-' :: rest =>
    match rest with
    | [] => []
    | ch :: t => ch.toUpper :: camelcaseList t
  | ch :: t => ch :: camelcaseList t

/-- Modelled from the spec: the `camelcase` helper of the absent
`lib/option.ts` (dash-separated words joined with inner words
capitalized), used to derive the key of the option value store. -/
def camelcase (s : String) : String :=
  String.mk (camelcaseList s.data)

/-- Modelled from the spec: `Option.attributeName()` of the absent
`lib/option.ts`: camelcase of the name with any leading `no-` removed. -/
def Opt.attributeName (o : Opt) : String := camelcase (stripNoDash o.optName)

/-- Modelled from the spec: `Option.isBoolean()` of the absent
`lib/option.ts` (argument cardinality "none"): an option that takes no
required or optional argument and is not a negation. -/
def Opt.isBoolean (o : Opt) : Bool :=
  !o.required && !o.optional && !o.negate

/-- A registered subcommand as far as dispatch decisions are concerned:
its name, aliases, and whether it is an executable (external) handler. -/
structure SubCmd where
  name : String
  aliases : List String := []
  executableHandler : Bool := false
deriving DecidableEq, Repr

/-- The per-command configuration read by the classifier and the
dispatcher (fields of class `Command` with their constructor defaults):
registered options, registered subcommands, the ancestor chain's option
lists (for `_getCommandAndAncestors` queries), and the parse-mode
flags. -/
structure Cmd where
  cmdName : String := ""
  options : List Opt := []
  commands : List SubCmd := []
  ancestorsOptions : List (List Opt) := []
  enablePositionalOptions : Bool := false
  passThroughOptions : Bool := false
  combineFlagAndOptionalValue : Bool := true
  defaultCommandName : Option String := none
  addImplicitHelpCommand : Option Bool := none
  helpCommandCustomName : Option String := none
  helpOptionState : Option (Option Opt) := none
  actionHandler : Bool := false
  allowUnknownOption : Bool := false

/-- `Command._findOption`: first registered option matching the token. -/
def findOption (c : Cmd) (arg : String) : Option Opt :=
  c.options.find? (fun o => o.is arg)

/-- `Command._findCommand`: no match for an empty name, else the first
subcommand whose name or alias equals the token. -/
def findCommandStr (c : Cmd) (nm : String) : Option SubCmd :=
  if nm = "" then none
  else c.commands.find? (fun sub => sub.name == nm || sub.aliases.contains nm)

/-- The name of the (possibly lazily created) help command, from
`Command._getHelpCommand`: present when `_addImplicitHelpCommand` is set,
or defaulted from having subcommands, no action handler and no command
named `help`; the default name is `help`. -/
def getHelpCommandName (c : Cmd) : Option String :=
  let implicit := match c.addImplicitHelpCommand with
    | some b => b
    | none => !c.commands.isEmpty && !c.actionHandler
        && (findCommandStr c "help").isNone
  if implicit then some (c.helpCommandCustomName.getD "help") else none

/-- The default lazily created help option (`-h, --help`) of
`Command.helpOption`. -/
def defaultHelpOpt : Opt :=
  { flags := "-h, --help", short := some "-h", long := some "--help",
    optName := "help" }

/-- `Command._getHelpOption`: lazily created default help option, or the
customised/disabled state. -/
def getHelpOption (c : Cmd) : Option Opt :=
  match c.helpOptionState with
  | none => some defaultHelpOpt
  | some s => s

/-- `maybeOption` from `parseOptions`: a token of length greater than one
that starts with a dash. -/
def maybeOption (a : String) : Bool :=
  match a.data with
  | ch :: _ :: _ => ch == '-'
  | _ => false

/-- Tail of a negative-number literal after the mantissa: empty, or a
lowercase `e`, an optional sign, and at least one digit (the
`(e[+-]?\d+)?$` part of the `negativeNumberArg` regex). -/
def expTail : List Char → Bool
  | [] => true
  | 'e' :: r =>
    let ds := match r with
      | '+' :: t => t
      | '-' :: t => t
      | t => t
    !ds.isEmpty && ds.all Char.isDigit
  | _ => false

/-- The negative-number pattern `^-(\d+|\d*\.\d+)(e[+-]?\d+)?$` of
`negativeNumberArg` in `parseOptions`. -/
def negNumberShape (a : String) : Bool :=
  match a.data with
  | '-' :: r =>
    let d1 := r.takeWhile Char.isDigit
    let r1 := r.dropWhile Char.isDigit
    match r1 with
    | '.' :: r2 =>
      let d2 := r2.takeWhile Char.isDigit
      let r3 := r2.dropWhile Char.isDigit
      !d2.isEmpty && expTail r3
    | _ => !d1.isEmpty && expTail r1
  | _ => false

/-- Whether some command in the hierarchy registered a short flag that is
itself a single digit (the `/^-\d$/` scan of `negativeNumberArg`). -/
def hasDigitShortInChain (c : Cmd) : Bool :=
  (c.options :: c.ancestorsOptions).any (fun opts =>
    opts.any (fun o =>
      match o.short with
      | some s =>
        match s.data with
        | ['-', d] => d.isDigit
        | _ => false
      | none => false))

/-- `negativeNumberArg` from `parseOptions`: the token matches the
negative-number pattern and no command in the hierarchy uses a digit as a
short flag. -/
def negativeNumberArg (c : Cmd) (a : String) : Bool :=
  negNumberShape a && !hasDigitShortInChain c

/-- The long-flag-with-equals pattern `/^--[^=]+=/` of `parseOptions`,
returning the flag up to (excluding) the first `=` and the text after it,
mirroring `arg.slice(0, index)` and `arg.slice(index + 1)`. -/
def longFlagEq (a : String) : Option (String × String) :=
  match a.data with
  | '-' :: '-' :: rest =>
    let pre := rest.takeWhile (fun ch => ch ≠ '=')
    let post := rest.dropWhile (fun ch => ch ≠ '=')
    match post with
    | '=' :: value =>
      if pre.isEmpty then none
      else some (String.mk ('-' :: '-' :: pre), String.mk value)
    | _ => none
  | _ => none

/-- The combo short-flag probe of `parseOptions`: for a token of length
greater than 2 starting with a single dash, look up the option registered
for `-` plus the token's second character. -/
def comboMatch (c : Cmd) (a : String) : Option Opt :=
  match a.data with
  | '-' :: c2 :: _ :: _ =>
    if c2 = '-' then none else findOption c (String.mk ['-', c2])
  | _ => none

/-- The mutable scan state of the `parseOptions` loop: the two output
streams, which of them is the active destination (`dest === unknown`),
the emitted value-assignment signals, and the active variadic option. -/
structure ScanState where
  operands : List String := []
  unknown : List String := []
  destUnknown : Bool := false
  events : List OptEvent := []
  activeVariadic : Option Opt := none

/-- `dest.push(...)`: append tokens to the currently active stream. -/
def ScanState.pushDest (st : ScanState) (xs : List String) : ScanState :=
  if st.destUnknown then { st with unknown := st.unknown ++ xs }
  else { st with operands := st.operands ++ xs }

/-- The output of `parseOptions` together with the emitted
value-assignment signals. -/
structure ParsedOptions where
  operands : List String
  unknown : List String
  events : List OptEvent
deriving DecidableEq, Repr

/-- `Command.optionMissingArgument`: required option value absent. -/
def optionMissingArgumentErr (o : Opt) : CommanderError :=
  ⟨1, "commander.optionMissingArgument",
    "error: option '" ++ o.flags ++ "' argument missing"⟩

/-- Sentinel for fuel exhaustion of the loop model; unreachable when the
loop is run with the fuel supplied by `parseOptions`. -/
def fuelExhaustedErr : CommanderError := ⟨1, "model.fuelExhausted", ""⟩

/-- Steps 7-10 of the scan loop (lines 2111-2154 of `command.ts`): a
token not recognised as one of this command's options.  First the
unknown-option divergence check (with the leaf-command negative-number
exemption), then the positional-options / pass-through early stops, then
the plain push to the active destination. -/
def unmatchedCase (c : Cmd)
    (recur : ScanState → Option String → List String →
      Except CommanderError ParsedOptions)
    (st : ScanState) (arg : String) (rest : List String) :
    Except CommanderError ParsedOptions :=
  let st :=
    if !st.destUnknown && maybeOption arg
        && !(c.commands.isEmpty && negativeNumberArg c arg) then
      { st with destUnknown := true }
    else st
  let passOrPush : Except CommanderError ParsedOptions :=
    if c.passThroughOptions then
      let st := st.pushDest (arg :: rest)
      .ok ⟨st.operands, st.unknown, st.events⟩
    else
      recur (st.pushDest [arg]) none rest
  if (c.enablePositionalOptions || c.passThroughOptions)
      && st.operands.isEmpty && st.unknown.isEmpty then
    if (findCommandStr c arg).isSome then
      .ok ⟨st.operands ++ [arg], st.unknown ++ rest, st.events⟩
    else if getHelpCommandName c == some arg then
      .ok ⟨st.operands ++ arg :: rest, st.unknown, st.events⟩
    else if c.defaultCommandName.isSome then
      .ok ⟨st.operands, st.unknown ++ arg :: rest, st.events⟩
    else passOrPush
  else passOrPush

/-- Steps 4-6 of the scan loop (lines 2054-2109 of `command.ts`), entered
with the variadic state already cleared: exact flag match (required /
optional / boolean), combo short-flag split, long flag with `=`, then
fall through to `unmatchedCase`. -/
def afterVariadic (c : Cmd)
    (recur : ScanState → Option String → List String →
      Except CommanderError ParsedOptions)
    (st : ScanState) (arg : String) (rest : List String) :
    Except CommanderError ParsedOptions :=
  match (if maybeOption arg then findOption c arg else none) with
  | some o =>
    let nextVariadic : Option Opt := if o.variadic then some o else none
    if o.required then
      match rest with
      | [] => .error (optionMissingArgumentErr o)
      | v :: rs =>
        recur { st with events := st.events ++ [.value o.name v],
                        activeVariadic := nextVariadic } none rs
    else if o.optional then
      match rest with
      | v :: rs =>
        if !maybeOption v || negativeNumberArg c v then
          recur { st with events := st.events ++ [.value o.name v],
                          activeVariadic := nextVariadic } none rs
        else
          recur { st with events := st.events ++ [.nullValue o.name],
                          activeVariadic := nextVariadic } none rest
      | [] =>
        recur { st with events := st.events ++ [.nullValue o.name],
                        activeVariadic := nextVariadic } none rest
    else
      recur { st with events := st.events ++ [.flag o.name],
                      activeVariadic := nextVariadic } none rest
  | none =>
    match comboMatch c arg with
    | some o =>
      if o.required || (o.optional && c.combineFlagAndOptionalValue) then
        recur { st with
          events := st.events ++ [.value o.name (String.mk (arg.data.drop 2))] }
          none rest
      else
        recur { st with events := st.events ++ [.flag o.name] }
          (some (String.mk ('-' :: arg.data.drop 2))) rest
    | none =>
      let le : Option (Opt × String) :=
        match longFlagEq arg with
        | some (nm, v) =>
          match findOption c nm with
          | some o => if o.required || o.optional then some (o, v) else none
          | none => none
        | none => none
      match le with
      | some (o, v) =>
        recur { st with events := st.events ++ [.value o.name v] } none rest
      | none => unmatchedCase c recur st arg rest

/-- One iteration of the `parseOptions` while loop for the token `arg`
(either the pending `activeGroup` or the next element of `args`), with
`rest` the tokens after the current position: the `--` literal check,
the active-variadic collection check, then `afterVariadic`. -/
def loopBody (c : Cmd)
    (recur : ScanState → Option String → List String →
      Except CommanderError ParsedOptions)
    (st : ScanState) (arg : String) (rest : List String) :
    Except CommanderError ParsedOptions :=
  if arg = "--" then
    let st := if st.destUnknown then st.pushDest ["--"] else st
    let st := st.pushDest rest
    .ok ⟨st.operands, st.unknown, st.events⟩
  else
    match st.activeVariadic with
    | some vo =>
      if !maybeOption arg || negativeNumberArg c arg then
        recur { st with events := st.events ++ [.value vo.name arg] } none rest
      else
        afterVariadic c recur { st with activeVariadic := none } arg rest
    | none => afterVariadic c recur st arg rest

/-- The `parseOptions` scan loop, fuel-indexed: pick the pending
`activeGroup` if present (without consuming an input token), else the
next input token; stop when both are exhausted. -/
def parseLoop (c : Cmd) :
    Nat → ScanState → Option String → List String →
      Except CommanderError ParsedOptions
  | 0, _, _, _ => .error fuelExhaustedErr
  | _ + 1, st, none, [] => .ok ⟨st.operands, st.unknown, st.events⟩
  | n + 1, st, some g, rest => loopBody c (parseLoop c n) st g rest
  | n + 1, st, none, arg :: rest => loopBody c (parseLoop c n) st arg rest

/-- Fuel bound for the scan loop: each iteration either consumes an input
token or shortens the pending short-flag group, so the total character
weight of the input plus one per token suffices. -/
def parseFuel (args : List String) : Nat :=
  (args.map (fun a => a.data.length + 2)).sum + 1

/-- `Command.parseOptions` (lines 2009-2158 of `command.ts`): classify a
flat token list into operands and unknown tokens, emitting one
value-assignment signal per recognised option occurrence. -/
def parseOptions (c : Cmd) (args : List String) :
    Except CommanderError ParsedOptions :=
  parseLoop c (parseFuel args) {} none args

deriving instance DecidableEq for Except

/-! ### Facts about non-option-shaped tokens -/

theorem maybeOption_ne_literal {a : String} (h : maybeOption a = false) :
    a ≠ "--" := by
  intro ha
  subst ha
  simp [maybeOption] at h

theorem comboMatch_of_not_maybeOption (c : Cmd) {a : String}
    (h : maybeOption a = false) : comboMatch c a = none := by
  unfold maybeOption at h
  unfold comboMatch
  split
  · rename_i heq
    rw [heq] at h
    simp at h
  · rfl

theorem longFlagEq_of_not_maybeOption {a : String}
    (h : maybeOption a = false) : longFlagEq a = none := by
  unfold maybeOption at h
  unfold longFlagEq
  split
  · rename_i heq
    rw [heq] at h
    simp at h
  · rfl

/-- A token that is not option-shaped, scanned while no variadic option
is active and the destination is still `operands`, in a command without
positional-options or pass-through modes, is pushed to `operands` and
scanning continues. -/
theorem loopBody_nonOption (c : Cmd)
    (recur : ScanState → Option String → List String →
      Except CommanderError ParsedOptions)
    (st : ScanState) (a : String) (rest : List String)
    (hmo : maybeOption a = false)
    (hvar : st.activeVariadic = none)
    (hdu : st.destUnknown = false)
    (hpos : c.enablePositionalOptions = false)
    (hpass : c.passThroughOptions = false) :
    loopBody c recur st a rest =
      recur { st with operands := st.operands ++ [a] } none rest := by
  unfold loopBody
  rw [if_neg (by exact fun hh => maybeOption_ne_literal hmo hh)]
  rw [hvar]
  unfold afterVariadic
  rw [hmo]
  simp only [Bool.false_eq_true, if_false]
  rw [comboMatch_of_not_maybeOption c hmo, longFlagEq_of_not_maybeOption hmo]
  unfold unmatchedCase
  rw [hdu, hmo, hpos, hpass]
  simp [ScanState.pushDest, hdu, hvar]

theorem parseLoop_noOptions (c : Cmd)
    (hpos : c.enablePositionalOptions = false)
    (hpass : c.passThroughOptions = false) :
    ∀ (rest : List String) (st : ScanState) (n : Nat),
      (∀ a ∈ rest, maybeOption a = false) →
      st.activeVariadic = none → st.destUnknown = false →
      rest.length < n →
      parseLoop c n st none rest =
        .ok ⟨st.operands ++ rest, st.unknown, st.events⟩ := by
  intro rest
  induction rest with
  | nil =>
    intro st n _ _ _ hn
    match n, hn with
    | n + 1, _ => simp [parseLoop]
  | cons a r ih =>
    intro st n hall hvar hdu hn
    match n, hn with
    | n + 1, hn =>
      have hstep : parseLoop c (n + 1) st none (a :: r) =
          loopBody c (parseLoop c n) st a r := rfl
      rw [hstep,
        loopBody_nonOption c (parseLoop c n) st a r
          (hall a (by simp)) hvar hdu hpos hpass,
        ih { st with operands := st.operands ++ [a] } n
          (fun x hx => hall x (by simp [hx])) hvar hdu
          (by simpa using Nat.lt_of_succ_lt_succ hn)]
      simp

theorem parseFuel_gt_length (args : List String) :
    args.length < parseFuel args := by
  induction args with
  | nil => simp [parseFuel]
  | cons a r ih =>
    simp only [parseFuel, List.map_cons, List.sum_cons, List.length_cons]
    simp only [parseFuel] at ih
    omega

/-- Claim C1, corrected form: for a command with positional options and
pass-through options disabled (the constructor defaults), a token list
with no option-shaped token (no token of length greater than one starting
with a dash) is classified entirely into `operands`, in order, with
`unknown` empty and no value-assignment signal emitted. -/
theorem claim1_amended (c : Cmd) (args : List String)
    (hpos : c.enablePositionalOptions = false)
    (hpass : c.passThroughOptions = false)
    (h : ∀ a ∈ args, maybeOption a = false) :
    parseOptions c args = .ok ⟨args, [], []⟩ := by
  unfold parseOptions
  rw [parseLoop_noOptions c hpos hpass args {} (parseFuel args) h rfl rfl
    (parseFuel_gt_length args)]
  rfl

theorem claim1_witness :
    (∀ a ∈ ["run", "file.txt", ""], maybeOption a = false)
    ∧ parseOptions {} ["run", "file.txt", ""] =
        .ok ⟨["run", "file.txt", ""], [], []⟩ :=
  ⟨by decide, claim1_amended {} ["run", "file.txt", ""] rfl rfl (by decide)⟩

/-- A command with positional options enabled and a subcommand `sub`. -/
def cPos : Cmd :=
  { enablePositionalOptions := true, commands := [{ name := "sub" }] }

/-- Claim C1, counterexample to the claim as stated: for the
positional-options command `cPos`, the token list `["sub", "x"]` contains
no option-shaped token, yet `parseOptions` stops at the subcommand name
and routes `"x"` into `unknown`, so `operands` is not the input list and
`unknown` is not empty. -/
theorem claim1_counterexample :
    (∀ a ∈ ["sub", "x"], maybeOption a = false)
    ∧ parseOptions cPos ["sub", "x"] = .ok ⟨["sub"], ["x"], []⟩
    ∧ parseOptions cPos ["sub", "x"] ≠ .ok ⟨["sub", "x"], [], []⟩ := by
  refine ⟨by decide, by decide, by decide⟩

/-- Claim C2: a token equal to exactly `--` reached at the head of the
scan loop (so not consumed as an option value) stops scanning at once:
every following token is appended verbatim to the currently active
destination (`operands`, or `unknown` if the stream already diverged,
where the `--` itself is also kept), no further value-assignment signal
is emitted, and no further option interpretation happens. -/
theorem claim2_literal_separator (c : Cmd) (st : ScanState)
    (rest : List String) (n : Nat) :
    parseLoop c (n + 1) st none ("--" :: rest) =
      .ok ⟨(if st.destUnknown then st.operands else st.operands ++ rest),
           (if st.destUnknown then st.unknown ++ "--" :: rest else st.unknown),
           st.events⟩ := by
  have hstep : parseLoop c (n + 1) st none ("--" :: rest) =
      loopBody c (parseLoop c n) st "--" rest := rfl
  rw [hstep]
  unfold loopBody
  cases h : st.destUnknown <;> simp [ScanState.pushDest, h]

/-! ### Facts about negative-number tokens -/

theorem negNumberShape_shape {a : String} (h : negNumberShape a = true) :
    ∃ c2 r, a.data = '-' :: c2 :: r ∧ (c2.isDigit = true ∨ c2 = '.') := by
  unfold negNumberShape at h
  split at h
  case h_2 => exact absurd h (by simp)
  case h_1 r heq =>
    match r, heq with
    | [], heq => simp at h
    | c2 :: t, heq =>
      by_cases hd : c2.isDigit = true
      · exact ⟨c2, t, heq, Or.inl hd⟩
      · by_cases hdot : c2 = '.'
        · exact ⟨c2, t, heq, Or.inr hdot⟩
        · exfalso
          rw [Bool.not_eq_true] at hd
          simp only [List.takeWhile_cons, List.dropWhile_cons, hd,
            Bool.false_eq_true, if_false] at h
          split at h
          · rename_i heq2
            simp only [List.cons.injEq] at heq2
            exact hdot heq2.1
          · simp at h

theorem negNumberShape_maybeOption {a : String}
    (h : negNumberShape a = true) : maybeOption a = true := by
  obtain ⟨c2, r, heq, _⟩ := negNumberShape_shape h
  unfold maybeOption
  rw [heq]
  rfl

theorem negNumberShape_ne_literal {a : String}
    (h : negNumberShape a = true) : a ≠ "--" := by
  intro hh
  rw [hh] at h
  exact absurd h (by decide)

theorem negNumberShape_longFlagEq {a : String}
    (h : negNumberShape a = true) : longFlagEq a = none := by
  obtain ⟨c2, r, heq, hc2⟩ := negNumberShape_shape h
  have hne : c2 ≠ '-' := by
    rcases hc2 with hd | hd
    · intro hh; rw [hh] at hd; simp at hd
    · intro hh; rw [hh] at hd; simp at hd
  unfold longFlagEq
  split
  · rename_i rest heq2
    rw [heq] at heq2
    simp only [List.cons.injEq] at heq2
    exact absurd heq2.2.1 hne
  · rfl

/-- Claim C3, corrected form: in a leaf command (no subcommands and no
default subcommand name), a token matching the negative-number pattern
with no digit short flag registered in the command hierarchy, reached at
the head of the scan loop (so not consumed as an option value, with no
active variadic option), not matching any registered flag directly or via
its two-character short-flag prefix, not naming the help command, and
encountered while the destination stream is still `operands`, is pushed
to `operands`, never to `unknown`. -/
theorem claim3_amended (c : Cmd) (st : ScanState) (a : String)
    (rest : List String) (n : Nat)
    (hleaf : c.commands = [])
    (hdef : c.defaultCommandName = none)
    (hhelp : getHelpCommandName c ≠ some a)
    (hneg : negativeNumberArg c a = true)
    (hfind : findOption c a = none)
    (hcombo : comboMatch c a = none)
    (hvar : st.activeVariadic = none)
    (hdu : st.destUnknown = false) :
    parseLoop c (n + 1) st none (a :: rest) =
      if c.passThroughOptions then
        .ok ⟨st.operands ++ a :: rest, st.unknown, st.events⟩
      else parseLoop c n { st with operands := st.operands ++ [a] }
        none rest := by
  have hshape : negNumberShape a = true := by
    unfold negativeNumberArg at hneg
    exact (Bool.and_elim_left hneg)
  have hmo : maybeOption a = true := negNumberShape_maybeOption hshape
  have hstep : parseLoop c (n + 1) st none (a :: rest) =
      loopBody c (parseLoop c n) st a rest := rfl
  rw [hstep]
  unfold loopBody
  rw [if_neg (negNumberShape_ne_literal hshape), hvar]
  unfold afterVariadic
  rw [hmo]
  simp only [if_true]
  rw [hfind, hcombo, negNumberShape_longFlagEq hshape]
  unfold unmatchedCase
  have hfc : findCommandStr c a = none := by
    unfold findCommandStr
    rw [hleaf]
    split <;> rfl
  have hhelpb : (getHelpCommandName c == some a) = false := by
    rw [beq_eq_false_iff_ne]
    exact hhelp
  have hflip : (!st.destUnknown && maybeOption a
      && !(c.commands.isEmpty && negativeNumberArg c a)) = false := by
    rw [hleaf, hneg]
    simp
  rw [hflip]
  cases hcond : ((c.enablePositionalOptions || c.passThroughOptions)
      && st.operands.isEmpty && st.unknown.isEmpty) <;>
    cases hpt : c.passThroughOptions <;>
      simp [hcond, hpt, hfc, hhelpb, hdef, ScanState.pushDest, hdu, hvar]

/-- A command with one subcommand and no options. -/
def cSub : Cmd := { commands := [{ name := "sub" }] }

/-- Claim C3, counterexample to the claim as stated: `-3.5` matches the
negative-number pattern and no digit short flag is registered anywhere,
yet (a) in command `cSub`, which has a subcommand, the token is routed to
`unknown`, and (b) even in a leaf command, once the stream has diverged
at `--bogus`, the token is appended to `unknown`. -/
theorem claim3_counterexample :
    negativeNumberArg cSub "-3.5" = true
    ∧ parseOptions cSub ["-3.5"] = .ok ⟨[], ["-3.5"], []⟩
    ∧ negativeNumberArg ({} : Cmd) "-3.5" = true
    ∧ parseOptions ({} : Cmd) ["--bogus", "-3.5"] =
        .ok ⟨[], ["--bogus", "-3.5"], []⟩ := by
  refine ⟨by decide, by decide, by decide, by decide⟩

theorem claim3_witness :
    parseLoop ({} : Cmd) 2 {} none ["-3.5"] =
      parseLoop ({} : Cmd) 1 { operands := ["-3.5"] } none []
    ∧ parseOptions ({} : Cmd) ["-3.5"] = .ok ⟨["-3.5"], [], []⟩ :=
  ⟨(claim3_amended ({} : Cmd) {} "-3.5" [] 1 rfl rfl (by decide) (by decide)
      rfl rfl rfl rfl).trans (by decide),
    by decide⟩


/-! ### Claim C4: combined short flags -/

/-- Boolean short options `-a`, `-b`, `-c` and the command registering
them, for the `-abc` cluster scenario. -/
def oA : Opt := { flags := "-a", short := some "-a", optName := "a" }

def oB : Opt := { flags := "-b", short := some "-b", optName := "b" }

def oC : Opt := { flags := "-c", short := some "-c", optName := "c" }

def cABC : Cmd := { options := [oA, oB, oC] }

/-- Claim C4, corrected form.  General part: a token of length greater
than 2 starting with a single dash, reached at the head of the scan loop
with no active variadic option, not itself an exact registered flag, and
whose two-character prefix matches a registered short flag, is split: if
that option takes a required argument, or an optional argument with
`combineFlagAndOptionalValue` enabled, the remainder of the token is
emitted as the option value; otherwise the boolean option is emitted and
the remainder becomes the pending `-`-prefixed cluster processed next.
Concrete part: `["-abc"]` against boolean short flags `-a`, `-b`, `-c`
produces exactly the three flag signals with empty operands and empty
unknown. -/
theorem claim4_combo :
    (∀ (c : Cmd) (st : ScanState) (a : String) (rest : List String)
        (n : Nat) (o : Opt) (c2 : Char) (r : List Char),
      a.data = '-' :: c2 :: r → r ≠ [] → c2 ≠ '-' →
      st.activeVariadic = none →
      findOption c a = none →
      comboMatch c a = some o →
      parseLoop c (n + 1) st none (a :: rest) =
        (if o.required || (o.optional && c.combineFlagAndOptionalValue) then
          parseLoop c n
            { st with events := st.events ++ [.value o.name (String.mk r)] }
            none rest
        else
          parseLoop c n { st with events := st.events ++ [.flag o.name] }
            (some (String.mk ('-' :: r))) rest))
    ∧ parseOptions cABC ["-abc"] =
        .ok ⟨[], [], [.flag "a", .flag "b", .flag "c"]⟩ := by
  constructor
  · intro c st a rest n o c2 r ha hr hc2 hvar hfind hcombo
    have hne : a ≠ "--" := by
      intro hh
      rw [hh] at ha
      have hdd : ("--" : String).data = ['-', '-'] := rfl
      rw [hdd] at ha
      simp only [List.cons.injEq] at ha
      exact hc2 ha.2.1.symm
    have hmo : maybeOption a = true := by
      unfold maybeOption
      rw [ha]
      rfl
    have hstep : parseLoop c (n + 1) st none (a :: rest) =
        loopBody c (parseLoop c n) st a rest := rfl
    rw [hstep]
    unfold loopBody
    rw [if_neg hne, hvar]
    unfold afterVariadic
    rw [hmo]
    simp only [if_true]
    rw [hfind]
    dsimp only
    rw [hcombo]
    dsimp only
    have hdrop : a.data.drop 2 = r := by rw [ha]; rfl
    rw [hdrop, hvar]
  · decide

/-- Registered options giving an exact whole-token match together with a
required-argument first-two-characters match: short flag `-abc` (boolean)
and short flag `-a` (required argument). -/
def oAbcBool : Opt := { flags := "-abc", short := some "-abc", optName := "abc" }

def oAreq : Opt :=
  { flags := "-a <v>", short := some "-a", required := true, optName := "a" }

def cExact : Cmd := { options := [oAbcBool, oAreq] }

/-- Claim C4, counterexample to the claim as stated: the token `-abc` has
length greater than 2, starts with a single dash, and its first two
characters `-a` match the registered short flag of the required-argument
option `oAreq`; the claim then demands that `bc` be emitted as that
option's value, but the scan finds the exact whole-token boolean flag
`-abc` first and emits its flag signal instead. -/
theorem claim4_counterexample :
    oAreq.required = true
    ∧ (findOption cExact "-a").map Opt.name = some "a"
    ∧ (findOption cExact "-a").map Opt.required = some true
    ∧ parseOptions cExact ["-abc"] = .ok ⟨[], [], [.flag "abc"]⟩
    ∧ (OptEvent.flag "abc") ≠ (OptEvent.value "a" "bc") := by
  refine ⟨rfl, by decide, by decide, by decide, by decide⟩

/-- A command with a single required-argument short option `-p`. -/
def oPshort : Opt :=
  { flags := "-p <n>", short := some "-p", required := true, optName := "p" }

def cPshort : Cmd := { options := [oPshort] }

theorem claim4_witness :
    parseLoop cPshort 2 {} none ["-p8080"] =
      parseLoop cPshort 1 { events := [.value "p" "8080"] } none []
    ∧ parseOptions cPshort ["-p8080"] = .ok ⟨[], [], [.value "p" "8080"]⟩ :=
  ⟨(claim4_combo.1 cPshort {} "-p8080" [] 1 oPshort 'p' ['8', '0', '8', '0']
      rfl (by decide) (by decide) rfl rfl rfl).trans (by decide),
    by decide⟩


/-! ### Option value store and value resolution pipeline -/

/-- JavaScript-object style update of an assoc list: overwrite in place
when the key exists, else append. -/
def assocSet {α : Type} (m : List (String × α)) (k : String) (v : α) :
    List (String × α) :=
  if m.any (fun p => p.1 == k) then
    m.map (fun p => if p.1 == k then (k, v) else p)
  else m ++ [(k, v)]

/-- Delete a key from an assoc list (the `delete` of
`setOptionValueWithSource` when the source is undefined). -/
def assocDel {α : Type} (m : List (String × α)) (k : String) :
    List (String × α) :=
  m.filter (fun p => p.1 != k)

/-- The per-command resolved option values (`_optionValues`) and their
provenance (`_optionValueSources`), in the separate key-value store used
when `storeOptionsAsProperties` is off. -/
structure ValState where
  values : List (String × JsValue) := []
  sources : List (String × Source) := []
deriving DecidableEq, Repr

/-- `Command.getOptionValue` (separate-store branch). -/
def getVal (vs : ValState) (key : String) : Option JsValue :=
  (vs.values.find? (fun p => p.1 == key)).map (fun p => p.2)

/-- `Command.getOptionValueSource`. -/
def getSrc (vs : ValState) (key : String) : Option Source :=
  (vs.sources.find? (fun p => p.1 == key)).map (fun p => p.2)

/-- `Command.setOptionValueWithSource` (separate-store branch): store the
value, and record the source, or delete the recorded source when the
source is undefined. -/
def setValWithSource (vs : ValState) (key : String) (v : JsValue)
    (src : Option Source) : ValState :=
  { values := assocSet vs.values key v,
    sources := match src with
      | some s => assocSet vs.sources key s
      | none => assocDel vs.sources key }

/-- Render a value the way it would be appended into a variadic string
array. -/
def jsDisplay : JsValue → String
  | .str s => s
  | .bool b => if b then "true" else "false"
  | .arr xs => String.intercalate "," xs

/-- Modelled from the spec: `Option._collectValue(value, previous)` of
the absent `lib/option.ts` ("Variadic: collects all remaining matching
tokens into a sequence"): start a fresh array when the previous value is
the default or not an array, else append. -/
def Opt.collectValue (o : Opt) (v : JsValue) (previous : Option JsValue) :
    JsValue :=
  match previous with
  | some (.arr xs) =>
    if o.defaultValue == some (.arr xs) then .arr [jsDisplay v]
    else .arr (xs ++ [jsDisplay v])
  | _ => .arr [jsDisplay v]

/-- The `handleOptionValue` closure registered by `Command.addOption`
for cli and env supplied values: substitute the preset for a missing
value, run the custom parser or variadic collection, fill in the
appropriate boolean/empty value for a still-missing value, then store the
value with its source. -/
def handleOptionValue (o : Opt) (vraw : Option JsValue) (src : Source)
    (vs : ValState) : Except CommanderError ValState := do
  let v1 := match vraw with
    | none => o.presetArg
    | some v => some v
  let oldValue := getVal vs o.attributeName
  let v2 ← match v1 with
    | some v =>
      match o.parseArg with
      | some f => do
        let r ← f v oldValue
        pure (some r)
      | none =>
        if o.variadic then pure (some (o.collectValue v oldValue))
        else pure (some v)
    | none => pure (none : Option JsValue)
  let v3 := match v2 with
    | some v => v
    | none =>
      if o.negate then JsValue.bool false
      else if o.isBoolean || o.optional then JsValue.bool true
      else JsValue.str ""
  pure (setValWithSource vs o.attributeName v3 (some src))

/-- Look up a registered option by its event name (the key of the
`option:` listener registered by `addOption`). -/
def findOptionByName (c : Cmd) (nm : String) : Option Opt :=
  c.options.find? (fun o => o.name == nm)

/-- Replay the value-assignment signals emitted by `parseOptions`
through the `addOption` listener, in emission order.  In the source each
`emit` is delivered synchronously during the scan; replaying afterwards
is equivalent because `parseOptions` never reads the value store. -/
def applyCliEvents (c : Cmd) (evs : List OptEvent) (vs : ValState) :
    Except CommanderError ValState :=
  evs.foldlM (fun vs e =>
    match e with
    | .value nm v =>
      match findOptionByName c nm with
      | some o => handleOptionValue o (some (.str v)) .cli vs
      | none => .ok vs
    | .nullValue nm =>
      match findOptionByName c nm with
      | some o => handleOptionValue o none .cli vs
      | none => .ok vs
    | .flag nm =>
      match findOptionByName c nm with
      | some o => handleOptionValue o none .cli vs
      | none => .ok vs) vs

/-- `Command._parseOptionsEnv`: for each option bound to an environment
variable that is present in the environment, when the option has no value
yet or its value came from default/config/env, deliver the environment
value (for value-taking options) or a bare signal (for booleans). -/
def applyEnv (c : Cmd) (envMap : List (String × String)) (vs : ValState) :
    Except CommanderError ValState :=
  c.options.foldlM (fun vs o =>
    match o.envVar with
    | some ev =>
      match (envMap.find? (fun p => p.1 == ev)).map (fun p => p.2) with
      | some envVal =>
        let key := o.attributeName
        let src := getSrc vs key
        if (getVal vs key).isNone
            || (src.isSome && (src == some .default || src == some .config
                || src == some .env)) then
          if o.required || o.optional then
            handleOptionValue o (some (.str envVal)) .env vs
          else
            handleOptionValue o none .env vs
        else .ok vs
      | none => .ok vs
    | none => .ok vs) vs

/-- Modelled from the spec: `DualOptions.valueFromOption` of the absent
`lib/option.ts`, used by `_parseOptionsImplied` ("preferring the flag
that actually supplies the truthy/falsy value when booleans and their
negations are both registered"): when a negated twin of the option
exists, the option is the plausible source of the value only when the
value differs from the negated twin's preset (false by default). -/
def dualValueFromOption (opts : List Opt) (value : Option JsValue)
    (o : Opt) : Bool :=
  match opts.find? (fun t => t.negate && t.attributeName == o.attributeName) with
  | none => true
  | some neg =>
    let negativeValue := neg.presetArg.getD (.bool false)
    value != some negativeValue

/-- The `hasCustomOptionValue` helper of `_parseOptionsImplied`: a
defined value whose source is neither default nor implied. -/
def hasCustomOptionValue (vs : ValState) (key : String) : Bool :=
  (getVal vs key).isSome &&
    !(match getSrc vs key with
      | some .default => true
      | some .implied => true
      | _ => false)

/-- `Command._parseOptionsImplied`: for each option carrying implied
values whose own value is custom and plausibly supplied by it, fill in
each implied key that does not already hold a custom value, with source
`implied`.  (The source guards on `option.implied !== undefined`; the
model uses a possibly empty list, with identical effect.) -/
def applyImplied (c : Cmd) (vs : ValState) : ValState :=
  (c.options.filter (fun o =>
      !o.implied.isEmpty && hasCustomOptionValue vs o.attributeName
        && dualValueFromOption c.options (getVal vs o.attributeName) o)).foldl
    (fun acc o =>
      o.implied.foldl (fun acc kv =>
        if hasCustomOptionValue acc kv.1 then acc
        else setValWithSource acc kv.1 kv.2 (some .implied)) acc) vs

/-! ### Validation pass: mandatory and conflicting options -/

/-- One command of the `_getCommandAndAncestors()` chain as seen by the
validation pass: its registered options and its value state. -/
structure ChainCmd where
  options : List Opt
  vals : ValState

/-- `Command.missingMandatoryOptionValue`: the error raised for a
mandatory option without a resolved value. -/
def missingMandatoryErr (o : Opt) : CommanderError :=
  ⟨1, "commander.missingMandatoryOptionValue",
    "error: required option '" ++ o.flags ++ "' not specified"⟩

/-- The first mandatory option without a resolved value along the chain,
in chain order then registration order — the one whose error
`_checkForMissingMandatoryOptions` raises. -/
def firstMissingMandatory : List ChainCmd → Option Opt
  | [] => none
  | cc :: t =>
    match cc.options.find? (fun o =>
        o.mandatory && (getVal cc.vals o.attributeName).isNone) with
    | some o => some o
    | none => firstMissingMandatory t

/-- `Command._checkForMissingMandatoryOptions`: walk the command and its
ancestors; report the first mandatory option lacking any resolved
value. -/
def checkForMissingMandatoryOptions (chain : List ChainCmd) :
    Option CommanderError :=
  (firstMissingMandatory chain).map missingMandatoryErr

/-- The `definedNonDefaultOptions` filter of
`_checkForConflictingLocalOptions`: options with a defined value whose
source is not `default`. -/
def definedNonDefault (opts : List Opt) (vs : ValState) : List Opt :=
  opts.filter (fun o =>
    (getVal vs o.attributeName).isSome
      && getSrc vs o.attributeName != some Source.default)

/-- The `findBestOptionFromValue` helper of `Command._conflictingOption`:
prefer the negated twin when it plausibly supplied the stored value
(matching its preset, or `false` without one), else the positive twin. -/
def findBestOptionFromValue (opts : List Opt) (vs : ValState) (o : Opt) :
    Opt :=
  let key := o.attributeName
  let value := getVal vs key
  let negativeOption :=
    opts.find? (fun t => t.negate && t.attributeName == key)
  let positiveOption :=
    opts.find? (fun t => !t.negate && t.attributeName == key)
  match negativeOption with
  | some neg =>
    if (neg.presetArg.isNone && value == some (.bool false))
        || (neg.presetArg.isSome && value == neg.presetArg) then neg
    else positiveOption.getD o
  | none => positiveOption.getD o

/-- The `getErrorMessage` helper of `Command._conflictingOption`: name
the environment variable when the value came from the environment, else
the flags of the best-matching option. -/
def conflictMsgPart (opts : List Opt) (vs : ValState) (o : Opt) : String :=
  let best := findBestOptionFromValue opts vs o
  if getSrc vs best.attributeName == some Source.env then
    "environment variable '" ++ best.envVar.getD "undefined" ++ "'"
  else "option '" ++ best.flags ++ "'"

/-- `Command._conflictingOption`: the conflicting-option error, naming
both flags' effective identities. -/
def conflictingOptionErr (opts : List Opt) (vs : ValState)
    (o conflicting : Opt) : CommanderError :=
  ⟨1, "commander.conflictingOption",
    "error: " ++ conflictMsgPart opts vs o ++ " cannot be used with "
      ++ conflictMsgPart opts vs conflicting⟩

/-- The first (option, conflicting-option) pair found by the `forEach`
of `_checkForConflictingLocalOptions`, searching the conflict-carrying
options in order and the defined non-default options in order. -/
def firstConflict (dnd : List Opt) : List Opt → Option (Opt × Opt)
  | [] => none
  | o :: t =>
    match dnd.find? (fun defined =>
        o.conflictsWith.contains defined.attributeName) with
    | some d => some (o, d)
    | none => firstConflict dnd t

/-- `Command._checkForConflictingLocalOptions`: among options with a
defined non-default value, report the first whose declared conflict set
names another of them. -/
def checkForConflictingLocalOptions (opts : List Opt) (vs : ValState) :
    Option CommanderError :=
  let dnd := definedNonDefault opts vs
  (firstConflict dnd (dnd.filter (fun o => !o.conflictsWith.isEmpty))).map
    (fun p => conflictingOptionErr opts vs p.1 p.2)

/-- `Command._checkForConflictingOptions`: run the local check on the
command and each ancestor, stopping at the first error. -/
def checkForConflictingOptionsChain : List ChainCmd → Option CommanderError
  | [] => none
  | cc :: t =>
    match checkForConflictingLocalOptions cc.options cc.vals with
    | some e => some e
    | none => checkForConflictingOptionsChain t

/-! ### Help and version terminations -/

/-- `Command.help`: the termination payload of the `commander.help`
category.  The exit code starts from the pre-set `process.exitCode`
(0 by default) and is promoted to 1 when the help was displayed as an
error (`{ error: true }`). -/
def helpTermination (processExitCode : Nat) (errorContext : Bool) :
    CommanderError :=
  let ec := if processExitCode = 0 && errorContext then 1
    else processExitCode
  ⟨ec, "commander.help", "(outputHelp)"⟩

/-- `Command._outputHelpIfRequested`: the termination payload of the
`commander.helpDisplayed` category, always exit code 0. -/
def helpDisplayedTermination : CommanderError :=
  ⟨0, "commander.helpDisplayed", "(outputHelp)"⟩

/-- The `option:version` listener registered by `Command.version`: the
termination payload of the `commander.version` category, always exit
code 0, carrying the version string. -/
def versionTermination (version : String) : CommanderError :=
  ⟨0, "commander.version", version⟩

/-- `Command._outputHelpIfRequested`: scan the given tokens for the help
option's flags and terminate with `commander.helpDisplayed` when
found. -/
def outputHelpIfRequested (c : Cmd) (args : List String) :
    Option CommanderError :=
  match getHelpOption c with
  | some ho =>
    if args.any (fun arg => ho.is arg) then some helpDisplayedTermination
    else none
  | none => none

/-! ### The dispatch decision of `_parseCommand` -/

/-- The routing decision `Command._parseCommand` takes after
classification: recurse into a named subcommand, dispatch the help
command, route to the default subcommand, or keep the tokens at this
level. -/
inductive Decision where
  | dispatchSub (name : String) (operands unknown : List String)
  | dispatchHelp (target : Option String)
  | dispatchDefault (name : String) (operands unknown : List String)
  | runLocal (operands unknown : List String)
deriving DecidableEq, Repr

/-- `Command._parseCommand` (lines 1811-1846 of `command.ts`) up to the
point where control leaves this command level: classify the incoming
unknown tokens, resolve cli, environment and implied values (in that
order), then decide in order: named subcommand dispatch, help-command
dispatch, default-subcommand routing (preceded by the help-flag check),
help-and-exit for a bare subcommand-holder, else stay local after the
help-flag check and the mandatory/conflicting validation pass. -/
def parseCommandStep (c : Cmd) (vs : ValState) (ancestors : List ChainCmd)
    (envMap : List (String × String)) (processExitCode : Nat)
    (operands0 unknown0 : List String) :
    Except CommanderError (ValState × Decision) := do
  let parsed ← parseOptions c unknown0
  let vs1 ← applyCliEvents c parsed.events vs
  let vs2 ← applyEnv c envMap vs1
  let vs3 := applyImplied c vs2
  let operands := operands0 ++ parsed.operands
  let unknown := parsed.unknown
  let args := operands ++ unknown
  match findCommandStr c (operands.headD "") with
  | some sub => pure (vs3, .dispatchSub sub.name operands.tail unknown)
  | none =>
    let isHelpCmd : Bool := match operands, getHelpCommandName c with
      | o0 :: _, some hn => o0 == hn
      | _, _ => false
    if isHelpCmd then
      pure (vs3, .dispatchHelp (operands.drop 1).head?)
    else
      match c.defaultCommandName with
      | some dn =>
        match outputHelpIfRequested c unknown with
        | some e => .error e
        | none => pure (vs3, .dispatchDefault dn operands unknown)
      | none =>
        if !c.commands.isEmpty && args.isEmpty && !c.actionHandler then
          .error (helpTermination processExitCode true)
        else
          match outputHelpIfRequested c parsed.unknown with
          | some e => .error e
          | none =>
            match checkForMissingMandatoryOptions
                (⟨c.options, vs3⟩ :: ancestors) with
            | some e => .error e
            | none =>
              match checkForConflictingOptionsChain
                  (⟨c.options, vs3⟩ :: ancestors) with
              | some e => .error e
              | none => pure (vs3, .runLocal operands unknown)

/-! ### Parse-state save and restore -/

/-- The state captured by `Command.saveStateBeforeParse`: the command
name and shallow clones of the option values and their sources. -/
structure SavedState where
  name : String
  optionValues : List (String × JsValue)
  optionValueSources : List (String × Source)
deriving DecidableEq, Repr

/-- The parse-scoped mutable fields of a `Command`, with their
constructor defaults, plus the `_savedState` slot. -/
structure MutState where
  name : String := ""
  scriptPath : Option String := none
  rawArgs : List String := []
  optionValues : List (String × JsValue) := []
  optionValueSources : List (String × Source) := []
  args : List String := []
  processedArgs : List String := []
  storeOptionsAsProperties : Bool := false
  savedState : Option SavedState := none
deriving DecidableEq, Repr

/-- `Command.saveStateBeforeParse`. -/
def saveStateBeforeParse (s : MutState) : MutState :=
  { s with savedState := some {
      name := s.name,
      optionValues := s.optionValues,
      optionValueSources := s.optionValueSources } }

/-- The message of the error thrown by `restoreStateBeforeParse` when
options are stored as properties. -/
def storeOptionsAsPropertiesMsg : String :=
  "Can not call parse again when storeOptionsAsProperties is true.\n - either make a new Command for each call to parse, or stop storing options as properties"

/-- `Command.restoreStateBeforeParse`: refuse when options are stored as
properties; else restore the saved name, values and sources, and clear
the script path, raw args, args and processed args. -/
def restoreStateBeforeParse (s : MutState) (saved : SavedState) :
    Except String MutState :=
  if s.storeOptionsAsProperties then .error storeOptionsAsPropertiesMsg
  else .ok { s with
    name := saved.name,
    scriptPath := none,
    rawArgs := [],
    optionValues := saved.optionValues,
    optionValueSources := saved.optionValueSources,
    args := [],
    processedArgs := [] }

/-- `Command._prepareForParse`: save on the first parse, restore on
every later one. -/
def prepareForParse (s : MutState) : Except String MutState :=
  match s.savedState with
  | none => .ok (saveStateBeforeParse s)
  | some saved => restoreStateBeforeParse s saved


/-! ### Claim C5: subcommand dispatch precedence -/

/-- Claim C5: when the first operand left by classification names a
registered child (by name or alias), `_parseCommand` dispatches to that
child with the remaining operands and the unknown list, after the cli,
environment-variable and implied-value resolution of this level, and
regardless of the help command, the default subcommand or this command's
own action handler. -/
theorem claim5_subcommand_precedence (c : Cmd) (vs : ValState)
    (ancestors : List ChainCmd) (envMap : List (String × String))
    (pec : Nat) (operands0 unknown0 : List String)
    (parsed : ParsedOptions) (vs1 vs2 : ValState) (sub : SubCmd)
    (hp : parseOptions c unknown0 = .ok parsed)
    (hcli : applyCliEvents c parsed.events vs = .ok vs1)
    (henv : applyEnv c envMap vs1 = .ok vs2)
    (hsub : findCommandStr c ((operands0 ++ parsed.operands).headD "")
      = some sub) :
    parseCommandStep c vs ancestors envMap pec operands0 unknown0 =
      .ok (applyImplied c vs2,
        .dispatchSub sub.name (operands0 ++ parsed.operands).tail
          parsed.unknown) := by
  unfold parseCommandStep
  rw [hp]
  dsimp only [Bind.bind, Except.bind]
  rw [hcli]
  dsimp only
  rw [henv]
  dsimp only
  rw [hsub]
  rfl

/-- The `--port <n>` option and a command with subcommand `serve`, an
action handler, a default subcommand and a help command, for the
precedence scenario. -/
def oPortLong : Opt :=
  { flags := "-p, --port <n>", short := some "-p", long := some "--port",
    required := true, optName := "port" }

def cServe : Cmd :=
  { options := [oPortLong], commands := [{ name := "serve" }],
    actionHandler := true, defaultCommandName := some "serve",
    addImplicitHelpCommand := some true }

theorem claim5_witness :
    parseCommandStep cServe {} [] [] 0 [] ["--port", "8080", "serve"] =
      .ok ({ values := [("port", .str "8080")],
             sources := [("port", .cli)] },
        .dispatchSub "serve" [] []) :=
  (claim5_subcommand_precedence cServe {} [] [] 0 []
    ["--port", "8080", "serve"] ⟨["serve"], [], [.value "port" "8080"]⟩
    { values := [("port", .str "8080")], sources := [("port", .cli)] }
    { values := [("port", .str "8080")], sources := [("port", .cli)] }
    { name := "serve" } (by decide) (by decide) (by decide)
    (by decide)).trans (by decide)

/-! ### Claim C6: missing mandatory options -/

theorem firstMissingMandatory_isSome_iff (chain : List ChainCmd) :
    (firstMissingMandatory chain).isSome = true ↔
      ∃ cc ∈ chain, ∃ o ∈ cc.options,
        o.mandatory = true ∧ getVal cc.vals o.attributeName = none := by
  induction chain with
  | nil => simp [firstMissingMandatory]
  | cons cc t ih =>
    unfold firstMissingMandatory
    cases hfind : cc.options.find? (fun o =>
        o.mandatory && (getVal cc.vals o.attributeName).isNone) with
    | some o =>
      simp only [Option.isSome_some, true_iff]
      have hmem := List.mem_of_find?_eq_some hfind
      have hpred := List.find?_some hfind
      rw [Bool.and_eq_true, Option.isNone_iff_eq_none] at hpred
      exact ⟨cc, by simp, o, hmem, hpred.1, hpred.2⟩
    | none =>
      dsimp only
      rw [ih]
      constructor
      · rintro ⟨cc2, h2, o, ho, hm, hv⟩
        exact ⟨cc2, List.mem_cons_of_mem _ h2, o, ho, hm, hv⟩
      · rintro ⟨cc2, h2, o, ho, hm, hv⟩
        rcases List.mem_cons.mp h2 with heq | h2
        · exfalso
          subst heq
          have hnp := List.find?_eq_none.mp hfind o ho
          rw [Bool.and_eq_true, Option.isNone_iff_eq_none] at hnp
          exact hnp ⟨hm, hv⟩
        · exact ⟨cc2, h2, o, ho, hm, hv⟩

/-- The mandatory option `--pepper <type>` of the spec scenario. -/
def pepperOpt : Opt :=
  { flags := "--pepper <type>", long := some "--pepper",
    required := true, mandatory := true, optName := "pepper" }

/-- Claim C6: walking the command and its ancestors after
classification, the validation pass raises an error exactly when some
option marked mandatory has no resolved value, and the raised error has
category `commander.missingMandatoryOptionValue` and exit code 1; in
particular a command with mandatory option `--pepper <type>` and no
resolved value for it produces exactly that error category. -/
theorem claim6_missing_mandatory :
    (∀ chain : List ChainCmd,
      (∃ cc ∈ chain, ∃ o ∈ cc.options,
          o.mandatory = true ∧ getVal cc.vals o.attributeName = none) ↔
        (∃ e, checkForMissingMandatoryOptions chain = some e
          ∧ e.code = "commander.missingMandatoryOptionValue"
          ∧ e.exitCode = 1))
    ∧ checkForMissingMandatoryOptions [⟨[pepperOpt], {}⟩] =
        some ⟨1, "commander.missingMandatoryOptionValue",
          "error: required option '--pepper <type>' not specified"⟩ := by
  constructor
  · intro chain
    rw [← firstMissingMandatory_isSome_iff]
    constructor
    · intro h
      obtain ⟨o, ho⟩ := Option.isSome_iff_exists.mp h
      exact ⟨missingMandatoryErr o,
        by simp [checkForMissingMandatoryOptions, ho], rfl, rfl⟩
    · rintro ⟨e, he, -, -⟩
      unfold checkForMissingMandatoryOptions at he
      cases hf : firstMissingMandatory chain with
      | some o => simp
      | none => rw [hf] at he; simp at he
  · decide

/-- Witness for claim C6: the single-command chain with the unresolved
mandatory `--pepper <type>` option satisfies the violation condition, so
the check raises the `commander.missingMandatoryOptionValue` error. -/
theorem claim6_witness :
    ∃ e, checkForMissingMandatoryOptions [⟨[pepperOpt], {}⟩] = some e
      ∧ e.code = "commander.missingMandatoryOptionValue"
      ∧ e.exitCode = 1 :=
  (claim6_missing_mandatory.1 [⟨[pepperOpt], {}⟩]).mp
    ⟨⟨[pepperOpt], {}⟩, by simp, pepperOpt, by simp, rfl, rfl⟩

/-! ### Claim C7: conflicting options -/

theorem firstConflict_isSome_iff (dnd : List Opt) (l : List Opt) :
    (firstConflict dnd l).isSome = true ↔
      ∃ o ∈ l, ∃ d ∈ dnd,
        o.conflictsWith.contains d.attributeName = true := by
  induction l with
  | nil => simp [firstConflict]
  | cons o t ih =>
    unfold firstConflict
    cases hfind : dnd.find? (fun defined =>
        o.conflictsWith.contains defined.attributeName) with
    | some d =>
      simp only [Option.isSome_some, true_iff]
      have hpred := List.find?_some hfind
      exact ⟨o, by simp, d, List.mem_of_find?_eq_some hfind,
        by simpa using hpred⟩
    | none =>
      dsimp only
      rw [ih]
      constructor
      · rintro ⟨o2, h2, d, hd, hc⟩
        exact ⟨o2, List.mem_cons_of_mem _ h2, d, hd, hc⟩
      · rintro ⟨o2, h2, d, hd, hc⟩
        rcases List.mem_cons.mp h2 with heq | h2
        · exfalso
          subst heq
          exact (List.find?_eq_none.mp hfind d hd) hc
        · exact ⟨o2, h2, d, hd, hc⟩

/-- The `--debug` / `--silent` conflict scenario: `--debug` declares a
conflict with `--silent`, and both were passed on the command line. -/
def debugOpt : Opt :=
  { flags := "--debug", long := some "--debug", optName := "debug",
    conflictsWith := ["silent"] }

def silentOpt : Opt :=
  { flags := "--silent", long := some "--silent", optName := "silent" }

def vsDS : ValState :=
  { values := [("debug", .bool true), ("silent", .bool true)],
    sources := [("debug", .cli), ("silent", .cli)] }

/-- Claim C7: the local conflicting-option check raises an error exactly
when some option with a defined non-default value declares a conflict
with another option with a defined non-default value, the raised error
has category `commander.conflictingOption` and exit code 1; in
particular with `--debug` conflicting with `--silent` and both passed on
the command line, the error names both flags. -/
theorem claim7_conflicting :
    (∀ (opts : List Opt) (vs : ValState),
      (∃ o ∈ definedNonDefault opts vs, ∃ d ∈ definedNonDefault opts vs,
          o.conflictsWith.contains d.attributeName = true) ↔
        (∃ e, checkForConflictingLocalOptions opts vs = some e
          ∧ e.code = "commander.conflictingOption" ∧ e.exitCode = 1))
    ∧ checkForConflictingLocalOptions [debugOpt, silentOpt] vsDS =
        some ⟨1, "commander.conflictingOption",
          "error: option '--debug' cannot be used with option '--silent'"⟩
    := by
  constructor
  · intro opts vs
    have hfilter :
        (∃ o ∈ (definedNonDefault opts vs).filter
            (fun o => !o.conflictsWith.isEmpty),
          ∃ d ∈ definedNonDefault opts vs,
            o.conflictsWith.contains d.attributeName = true) ↔
        (∃ o ∈ definedNonDefault opts vs,
          ∃ d ∈ definedNonDefault opts vs,
            o.conflictsWith.contains d.attributeName = true) := by
      constructor
      · rintro ⟨o, ho, d, hd, hc⟩
        exact ⟨o, (List.mem_filter.mp ho).1, d, hd, hc⟩
      · rintro ⟨o, ho, d, hd, hc⟩
        refine ⟨o, List.mem_filter.mpr ⟨ho, ?_⟩, d, hd, hc⟩
        have hmem : d.attributeName ∈ o.conflictsWith := by
          simpa using hc
        have hne : o.conflictsWith ≠ [] := List.ne_nil_of_mem hmem
        simp [List.isEmpty_iff, hne]
    rw [← hfilter, ← firstConflict_isSome_iff]
    constructor
    · intro h
      obtain ⟨pr, hpr⟩ := Option.isSome_iff_exists.mp h
      exact ⟨conflictingOptionErr opts vs pr.1 pr.2,
        by simp [checkForConflictingLocalOptions, hpr], rfl, rfl⟩
    · rintro ⟨e, he, -, -⟩
      simp only [checkForConflictingLocalOptions] at he
      cases hf : firstConflict (definedNonDefault opts vs)
          ((definedNonDefault opts vs).filter
            (fun o => !o.conflictsWith.isEmpty)) with
      | some pr => simp
      | none => rw [hf] at he; simp at he
  · decide

/-- Witness for claim C7: the `--debug` / `--silent` scenario satisfies
the conflict condition, so the check raises the
`commander.conflictingOption` error. -/
theorem claim7_witness :
    ∃ e, checkForConflictingLocalOptions [debugOpt, silentOpt] vsDS
        = some e
      ∧ e.code = "commander.conflictingOption" ∧ e.exitCode = 1 :=
  (claim7_conflicting.1 [debugOpt, silentOpt] vsDS).mp
    (by
      have hd : definedNonDefault [debugOpt, silentOpt] vsDS
          = [debugOpt, silentOpt] := rfl
      rw [hd]
      exact ⟨debugOpt, by simp, silentOpt, by simp, by decide⟩)

/-! ### Claim C8: help, helpDisplayed and version exit codes -/

/-- Claim C8, counterexample to the claim as stated: `help({ error:
true })` — used by the dispatcher for an unknown or missing subcommand —
terminates with category `commander.help` and exit code 1, not 0, so not
every `help`-category termination is a non-error exit-code-0
termination. -/
theorem claim8_counterexample :
    helpTermination 0 true =
      ⟨1, "commander.help", "(outputHelp)"⟩
    ∧ (helpTermination 0 true).exitCode ≠ 0 := by decide

/-- Claim C8, corrected form: `helpDisplayed` and `version` terminations
always carry exit code 0; a `help` termination carries exit code 0
exactly in the non-error case with the default process exit code 0
(help displayed as an error promotes a zero exit code to 1, and a
pre-set nonzero process exit code is kept). -/
theorem claim8_amended :
    (∀ v, (versionTermination v).exitCode = 0
      ∧ (versionTermination v).code = "commander.version")
    ∧ helpDisplayedTermination.exitCode = 0
    ∧ helpDisplayedTermination.code = "commander.helpDisplayed"
    ∧ (∀ (c : Cmd) (args : List String) (e : CommanderError),
        outputHelpIfRequested c args = some e →
          e.exitCode = 0 ∧ e.code = "commander.helpDisplayed")
    ∧ (∀ err, (helpTermination 0 err).exitCode = if err then 1 else 0)
    ∧ (∀ pec, (helpTermination pec false).exitCode = pec) := by
  refine ⟨fun v => ⟨rfl, rfl⟩, rfl, rfl, ?_, ?_, ?_⟩
  · intro c args e h
    unfold outputHelpIfRequested at h
    cases hho : getHelpOption c with
    | none => rw [hho] at h; simp at h
    | some ho =>
      rw [hho] at h
      dsimp only at h
      by_cases hany : args.any (fun arg => ho.is arg) = true
      · rw [if_pos hany] at h
        have he : e = helpDisplayedTermination := by
          injection h with h2
          exact h2.symm
        rw [he]
        exact ⟨rfl, rfl⟩
      · rw [if_neg hany] at h
        simp at h
  · intro err
    cases err <;> rfl
  · intro pec
    unfold helpTermination
    cases hz : pec == 0 <;> simp_all
theorem claim8_witness :
    outputHelpIfRequested {} ["--help"] = some helpDisplayedTermination
    ∧ helpDisplayedTermination.exitCode = 0
    ∧ helpDisplayedTermination.code = "commander.helpDisplayed" :=
  ⟨by decide,
    claim8_amended.2.2.2.1 {} ["--help"] helpDisplayedTermination
      (by decide)⟩

/-! ### Claim C9: state reset between parses -/

/-- Claim C9: for a command whose pre-first-parse state `s0` is the
constructor state for the parse-scoped fields (no raw args, args,
processed args or script path, and nothing saved yet), starting a later
parse from any mutated state `s1` that carries the snapshot taken at the
start of the first parse restores every parse-scoped field — resolved
option values, provenance sources, args, processedArgs, rawArgs, script
path and deduced name — to its pre-first-parse value, so the new parse
observes no leftover state. -/
theorem claim9_state_reset (s0 s1 : MutState)
    (_h0saved : s0.savedState = none)
    (h0raw : s0.rawArgs = [])
    (h0args : s0.args = [])
    (h0proc : s0.processedArgs = [])
    (h0script : s0.scriptPath = none)
    (hstore : s1.storeOptionsAsProperties = false)
    (hlink : s1.savedState = (saveStateBeforeParse s0).savedState) :
    prepareForParse s1 = .ok { s1 with
      name := s0.name,
      scriptPath := s0.scriptPath,
      rawArgs := s0.rawArgs,
      optionValues := s0.optionValues,
      optionValueSources := s0.optionValueSources,
      args := s0.args,
      processedArgs := s0.processedArgs } := by
  unfold prepareForParse
  rw [hlink]
  unfold saveStateBeforeParse
  dsimp only
  unfold restoreStateBeforeParse
  rw [hstore]
  dsimp only
  rw [h0raw, h0args, h0proc, h0script, hlink]
  rfl

/-- A pre-first-parse state and its mutated post-first-parse state. -/
def s0c : MutState :=
  { name := "prog",
    optionValues := [("port", .str "80")],
    optionValueSources := [("port", .default)] }

def s1c : MutState :=
  { name := "prog",
    scriptPath := some "/usr/bin/prog",
    rawArgs := ["node", "prog", "--port", "99"],
    optionValues := [("port", .str "99")],
    optionValueSources := [("port", .cli)],
    args := ["x"],
    processedArgs := ["x"],
    savedState := some {
      name := "prog",
      optionValues := [("port", .str "80")],
      optionValueSources := [("port", .default)] } }

theorem claim9_witness :
    prepareForParse s1c = .ok { s1c with
      name := "prog",
      scriptPath := none,
      rawArgs := [],
      optionValues := [("port", .str "80")],
      optionValueSources := [("port", .default)],
      args := [],
      processedArgs := [] } :=
  (claim9_state_reset s0c s1c rfl rfl rfl rfl rfl rfl rfl).trans (by decide)

/-! ### Claim C10: parse again with storeOptionsAsProperties -/

/-- Claim C10: the first call to parse (nothing saved yet) always
succeeds, saving the pre-parse state, even when option values are stored
as properties; every later call (a snapshot exists) with
`storeOptionsAsProperties` enabled fails with the error message telling
the caller that parse cannot be called again — `_prepareForParse` runs
before any token is touched, so no tokens are processed. -/
theorem claim10_store_as_properties :
    (∀ s : MutState, s.savedState = none →
      prepareForParse s = .ok (saveStateBeforeParse s))
    ∧ (∀ (s : MutState) (saved : SavedState),
        s.savedState = some saved → s.storeOptionsAsProperties = true →
          prepareForParse s = .error storeOptionsAsPropertiesMsg) := by
  constructor
  · intro s h
    unfold prepareForParse
    rw [h]
  · intro s saved h hstore
    unfold prepareForParse
    rw [h]
    unfold restoreStateBeforeParse
    rw [hstore]
    rfl

theorem claim10_witness :
    prepareForParse { storeOptionsAsProperties := true } =
      .ok (saveStateBeforeParse { storeOptionsAsProperties := true })
    ∧ prepareForParse
        { storeOptionsAsProperties := true,
          savedState := some {
            name := "",
            optionValues := [],
            optionValueSources := [] } } =
      .error storeOptionsAsPropertiesMsg :=
  ⟨claim10_store_as_properties.1 { storeOptionsAsProperties := true } rfl,
    claim10_store_as_properties.2
      { storeOptionsAsProperties := true,
        savedState := some {
          name := "",
          optionValues := [],
          optionValueSources := [] } }
      { name := "", optionValues := [], optionValueSources := [] }
      rfl rfl⟩

end CommanderTS
